import Mathlib

/-!
Verification of the transit module of p-winds (`src/p_winds/transit.py`).

The module has two public operations:

* `draw_transit` rasterizes a star disk and a planet disk on a square
  `grid_size × grid_size` grid, returning a normalized flux map together with a
  map of atmospheric column densities obtained by radial interpolation of a
  supplied 1-D density profile.
* `transmission` computes a Voigt absorption profile on a wavelength grid.

This file gives a shallow embedding of those operations and proves the claims
of the specification about them.  Conventions used throughout:

* Python floats are modeled by exact arithmetic: `ℚ` wherever the source only
  uses field operations and comparisons, `ℝ` where square roots or `π` enter
  (the pixel-distance map `r_p` and the line-profile widths).
* The PIL call `ImageDraw.ellipse(..., outline=1, fill=1)` is an external
  image-library primitive (PIL is not part of this repository); it is modeled
  by the inclusive pixel-center rule stated in the specification: a pixel
  belongs to the disk iff its center lies on or within the circle.  PIL mode-1
  images store set pixels as a fixed nonzero value that scales the star and the
  planet masks identically and cancels in the normalized flux map, so masks
  are modeled as 0/1 values.
* `scipy.interpolate.interp1d(x, y, bounds_error=False, fill_value=0.0)` is
  modeled by `linInterp` on the list of nodes in the given order; the
  specification requires the radius profile to be monotonic, and every theorem
  below is either invariant under the node order or explicit about it.
  `interp1d` raises when `x` and `y` have different lengths or fewer than two
  entries, which `draw_transit` surfaces to the caller; this is the length
  guard in the embedding of `draw_transit`.
* Fallible paths of `draw_transit` (the `TypeError`/`ValueError` raised when a
  density profile is supplied without its companion parameters) are modeled by
  `Except`.
-/

namespace PWinds

/-- Python's `int()` applied to a float: it rounds toward zero, i.e. takes the
floor of nonnegative values and the ceiling of negative ones. -/
def pyInt (q : ℚ) : ℤ := if 0 ≤ q then ⌊q⌋ else ⌈q⌉

/-- Truncation toward zero of a rational, defined independently of `pyInt` as
truncating division of the numerator by the denominator (`Int.tdiv` rounds
toward zero).  This is the "round_toward_zero" of the specification. -/
def truncTowardZero (q : ℚ) : ℤ := q.num.tdiv q.den

/-- Python's `//` on floats: floor division, returning a float. -/
def pyFloorDiv (a b : ℚ) : ℚ := (⌊a / b⌋ : ℤ)

/-- `star_radius = grid_size // 2` (transit.py line 95). -/
def star_radius (gs : ℕ) : ℕ := gs / 2

/-- `planet_radius = star_radius * planet_to_star_ratio` (transit.py line 96). -/
def planet_radius (ratio : ℚ) (gs : ℕ) : ℚ := (star_radius gs : ℚ) * ratio

/-- `x_p = grid_size // 2 + int(phase * grid_size)` (transit.py line 104). -/
def x_p (phase : ℚ) (gs : ℕ) : ℤ := ((gs / 2 : ℕ) : ℤ) + pyInt (phase * (gs : ℚ))

/-- `y_p = grid_size // 2 + int(impact_parameter * grid_size // 2)`
(transit.py line 105); `impact_parameter * grid_size // 2` parses as
`(impact_parameter * grid_size) // 2`, a float floor division. -/
def y_p (ip : ℚ) (gs : ℕ) : ℤ :=
  ((gs / 2 : ℕ) : ℤ) + pyInt (pyFloorDiv (ip * (gs : ℚ)) 2)

/-- Membership of the pixel with center `(x, y)` in the rasterized disk of
center `(cx, cy)` and radius `r`: the inclusive pixel-center rule of the
specification, modeling `_draw_disk` (transit.py lines 67-92).  A negative
radius rasterizes no pixels. -/
def inDisk (cx cy r : ℚ) (x y : ℕ) : Prop :=
  0 ≤ r ∧ ((x : ℚ) - cx) ^ 2 + ((y : ℚ) - cy) ^ 2 ≤ r ^ 2

instance (cx cy r : ℚ) (x y : ℕ) : Decidable (inDisk cx cy r x y) :=
  inferInstanceAs (Decidable (_ ∧ _))

/-- Star-disk membership: center `(star_radius, star_radius)`, radius
`star_radius` (transit.py line 97). -/
def starMem (gs : ℕ) (x y : ℕ) : Prop :=
  inDisk (star_radius gs : ℚ) (star_radius gs : ℚ) (star_radius gs : ℚ) x y

instance (gs x y : ℕ) : Decidable (starMem gs x y) :=
  inferInstanceAs (Decidable (inDisk _ _ _ _ _))

/-- Planet-disk membership: center `(x_p, y_p)`, radius `planet_radius`
(transit.py line 129). -/
def planetMem (ratio ip phase : ℚ) (gs : ℕ) (x y : ℕ) : Prop :=
  inDisk ((x_p phase gs : ℤ) : ℚ) ((y_p ip gs : ℤ) : ℚ) (planet_radius ratio gs) x y

instance (ratio ip phase : ℚ) (gs x y : ℕ) :
    Decidable (planetMem ratio ip phase gs x y) :=
  inferInstanceAs (Decidable (inDisk _ _ _ _ _))

/-- The grid's pixel index set, as pairs `(x, y)` with both below `grid_size`. -/
def pixels (gs : ℕ) : Finset (ℕ × ℕ) := Finset.range gs ×ˢ Finset.range gs

/-- `norm = np.sum(star)`: the total of the star-mask values
(transit.py line 98). -/
def gridNorm (gs : ℕ) : ℚ :=
  ∑ p ∈ pixels gs, if starMem gs p.1 p.2 then (1 : ℚ) else 0

/-- Entry `[i][j]` (row `i`, column `j`) of the normalized flux map: the array
entry at row `i`, column `j` corresponds to the pixel `(x, y) = (j, i)`.  It is
`max(0, star/norm - planet/norm)` — star grid divided by `norm`, planet mask
subtracted divided by `norm`, then clipped at `0.0`
(transit.py lines 100, 131, 134). -/
def fluxEntry (ratio ip phase : ℚ) (gs : ℕ) (i j : ℕ) : ℚ :=
  max 0 ((if starMem gs j i then (1 : ℚ) else 0) / gridNorm gs -
    (if planetMem ratio ip phase gs j i then (1 : ℚ) else 0) / gridNorm gs)

/-- Materialize a `grid_size × grid_size` array from an entry function
(row index first). -/
def toGrid {α : Type} (gs : ℕ) (f : ℕ → ℕ → α) : List (List α) :=
  (List.range gs).map fun i => (List.range gs).map fun j => f i j

/-- The returned `normalized_flux_map` (transit.py line 134). -/
def fluxGrid (ratio ip phase : ℚ) (gs : ℕ) : List (List ℚ) :=
  toGrid gs (fluxEntry ratio ip phase gs)

/-- Sum of all entries of a 2-D array (`np.sum`). -/
def sumGrid (g : List (List ℚ)) : ℚ := (g.map List.sum).sum

/-- `np.sum(normalized_flux_map)`. -/
def sumFlux (ratio ip phase : ℚ) (gs : ℕ) : ℚ :=
  sumGrid (fluxGrid ratio ip phase gs)

/- ### Helper lemmas about the flux map -/

theorem pyInt_eq_truncTowardZero (q : ℚ) : pyInt q = truncTowardZero q := by
  unfold pyInt truncTowardZero
  by_cases h : 0 ≤ q
  · rw [if_pos h, Rat.floor_def]
    exact (Int.tdiv_eq_ediv (Rat.num_nonneg.mpr h) (by positivity)).symm
  · rw [if_neg h]
    have hnum : q.num ≤ 0 := le_of_lt (Rat.num_neg.mpr (lt_of_not_le h))
    have h1 : q.num.tdiv q.den = -((-q.num).tdiv q.den) := by
      rw [← Int.neg_tdiv, neg_neg]
    rw [h1, Int.tdiv_eq_ediv (by omega) (by positivity)]
    rw [show (⌈q⌉ : ℤ) = -⌊-q⌋ by rw [← Int.ceil_neg, neg_neg]]
    congr 1
    rw [Rat.floor_def, Rat.num_neg_eq_neg_num, Rat.den_neg_eq_den]

theorem listSum_range (n : ℕ) (f : ℕ → ℚ) :
    ((List.range n).map f).sum = ∑ i ∈ Finset.range n, f i := by
  induction n with
  | zero => simp
  | succ k ih => simp [List.range_succ, Finset.sum_range_succ, ih]

theorem sumGrid_toGrid (gs : ℕ) (f : ℕ → ℕ → ℚ) :
    sumGrid (toGrid gs f) = ∑ i ∈ Finset.range gs, ∑ j ∈ Finset.range gs, f i j := by
  unfold sumGrid toGrid
  rw [List.map_map]
  rw [show (List.sum ∘ fun i => (List.range gs).map fun j => f i j) =
      fun i => ∑ j ∈ Finset.range gs, f i j from funext fun i => listSum_range gs (f i)]
  exact listSum_range gs _

/-- The set of rasterized star pixels. -/
def starSet (gs : ℕ) : Finset (ℕ × ℕ) :=
  (pixels gs).filter fun p => starMem gs p.1 p.2

/-- The set of pixels covered by the star but not by the planet. -/
def visibleSet (ratio ip phase : ℚ) (gs : ℕ) : Finset (ℕ × ℕ) :=
  (pixels gs).filter fun p =>
    starMem gs p.1 p.2 ∧ ¬ planetMem ratio ip phase gs p.1 p.2

theorem gridNorm_eq_card (gs : ℕ) : gridNorm gs = (starSet gs).card := by
  unfold gridNorm starSet
  rw [Finset.sum_boole]

theorem gridNorm_nonneg (gs : ℕ) : 0 ≤ gridNorm gs := by
  rw [gridNorm_eq_card]; positivity

theorem fluxEntry_eq_ite (ratio ip phase : ℚ) (gs : ℕ) (i j : ℕ) :
    fluxEntry ratio ip phase gs i j =
      if starMem gs j i ∧ ¬ planetMem ratio ip phase gs j i
      then 1 / gridNorm gs else 0 := by
  have hN : 0 ≤ 1 / gridNorm gs := div_nonneg zero_le_one (gridNorm_nonneg gs)
  unfold fluxEntry
  by_cases hs : starMem gs j i <;> by_cases hp : planetMem ratio ip phase gs j i
  · simp [hs, hp]
  · simp [hs, hp, max_eq_right hN, gridNorm_nonneg gs]
  · simp only [hs, hp, if_true, if_false, eq_self_iff_true, not_true, and_false,
      if_neg, zero_div, zero_sub]
    simpa using max_eq_left (neg_nonpos.mpr hN)
  · simp [hs, hp]

theorem sumFlux_eq_card_div (ratio ip phase : ℚ) (gs : ℕ) :
    sumFlux ratio ip phase gs =
      (visibleSet ratio ip phase gs).card / gridNorm gs := by
  unfold sumFlux fluxGrid
  rw [sumGrid_toGrid]
  have h1 : ∀ i j, fluxEntry ratio ip phase gs i j =
      if starMem gs j i ∧ ¬ planetMem ratio ip phase gs j i
      then 1 / gridNorm gs else 0 := fluxEntry_eq_ite ratio ip phase gs
  simp only [h1]
  rw [Finset.sum_comm, ← Finset.sum_product']
  unfold visibleSet pixels
  rw [← Finset.sum_filter, Finset.sum_const, nsmul_eq_mul, mul_one_div]

theorem mem_pixels (gs : ℕ) (p : ℕ × ℕ) :
    p ∈ pixels gs ↔ p.1 < gs ∧ p.2 < gs := by
  simp [pixels, Finset.mem_product]

theorem center_mem_starSet (gs : ℕ) (h : 1 ≤ gs) :
    (gs / 2, gs / 2) ∈ starSet gs := by
  have hlt : gs / 2 < gs := Nat.div_lt_self (by omega) (by omega)
  refine Finset.mem_filter.mpr ⟨(mem_pixels gs _).mpr ⟨hlt, hlt⟩, ?_⟩
  refine ⟨by positivity, ?_⟩
  simp [star_radius]

theorem gridNorm_pos (gs : ℕ) (h : 1 ≤ gs) : 0 < gridNorm gs := by
  rw [gridNorm_eq_card]
  have : 0 < (starSet gs).card :=
    Finset.card_pos.mpr ⟨_, center_mem_starSet gs h⟩
  exact_mod_cast this

theorem visibleSet_subset (ratio ip phase : ℚ) (gs : ℕ) :
    visibleSet ratio ip phase gs ⊆ starSet gs := by
  intro p hp
  rw [visibleSet, Finset.mem_filter] at hp
  exact Finset.mem_filter.mpr ⟨hp.1, hp.2.1⟩

/-- C2: for every real phase and impact parameter and every grid size, the
planet center pixel coordinates are
`x_p = grid_size//2 + round_toward_zero(phase * grid_size)` and
`y_p = grid_size//2 + round_toward_zero(impact_parameter * grid_size // 2)`
(the inner `//` being the float floor division of the source), where
`round_toward_zero` is truncation toward zero. -/
theorem claim_C2_planet_center (phase ip : ℚ) (gs : ℕ) :
    x_p phase gs = ((gs / 2 : ℕ) : ℤ) + truncTowardZero (phase * (gs : ℚ)) ∧
    y_p ip gs = ((gs / 2 : ℕ) : ℤ) + truncTowardZero ((⌊ip * (gs : ℚ) / 2⌋ : ℤ) : ℚ) := by
  constructor
  · rw [x_p, pyInt_eq_truncTowardZero]
  · rw [y_p, pyInt_eq_truncTowardZero, pyFloorDiv]

/-- C3 (amended): for every input with a positive grid size, the sum of the
normalized flux map lies in `[0, 1]`; it equals `1` iff the rasterized planet
disk does not overlap the rasterized star disk, and it is strictly below `1`
when they overlap.  (The lower end is `0`, not strictly positive: the sum is
`0` when the planet disk covers every star pixel.) -/
theorem claim_C3_amended (ratio ip phase : ℚ) (gs : ℕ) (h : 1 ≤ gs) :
    0 ≤ sumFlux ratio ip phase gs ∧ sumFlux ratio ip phase gs ≤ 1 ∧
    (sumFlux ratio ip phase gs = 1 ↔
      ∀ x y, x < gs → y < gs →
        ¬(starMem gs x y ∧ planetMem ratio ip phase gs x y)) ∧
    ((∃ x y, x < gs ∧ y < gs ∧ starMem gs x y ∧ planetMem ratio ip phase gs x y) →
      sumFlux ratio ip phase gs < 1) := by
  have hN : 0 < gridNorm gs := gridNorm_pos gs h
  have hsub := visibleSet_subset ratio ip phase gs
  have hcard : (visibleSet ratio ip phase gs).card ≤ (starSet gs).card :=
    Finset.card_le_card hsub
  have hsum := sumFlux_eq_card_div ratio ip phase gs
  have hle : sumFlux ratio ip phase gs ≤ 1 := by
    rw [hsum, div_le_one hN, gridNorm_eq_card]
    exact_mod_cast hcard
  have hiff : sumFlux ratio ip phase gs = 1 ↔
      ∀ x y, x < gs → y < gs →
        ¬(starMem gs x y ∧ planetMem ratio ip phase gs x y) := by
    rw [hsum, div_eq_one_iff_eq hN.ne', gridNorm_eq_card, Nat.cast_inj]
    constructor
    · intro heq x y hx hy hxy
      have hVS : visibleSet ratio ip phase gs = starSet gs :=
        Finset.eq_of_subset_of_card_le hsub (le_of_eq heq.symm)
      have hmem : (x, y) ∈ starSet gs :=
        Finset.mem_filter.mpr ⟨(mem_pixels gs _).mpr ⟨hx, hy⟩, hxy.1⟩
      rw [← hVS, visibleSet, Finset.mem_filter] at hmem
      exact hmem.2.2 hxy.2
    · intro hno
      have hVS : visibleSet ratio ip phase gs = starSet gs := by
        unfold visibleSet starSet
        refine Finset.filter_congr ?_
        intro p hp
        have hb := (mem_pixels gs p).mp hp
        constructor
        · intro hsp
          exact hsp.1
        · intro hs
          exact ⟨hs, fun hpl => hno p.1 p.2 hb.1 hb.2 ⟨hs, hpl⟩⟩
      rw [hVS]
  refine ⟨by rw [hsum]; exact div_nonneg (by positivity) hN.le, hle, hiff, ?_⟩
  rintro ⟨x, y, hx, hy, hs, hp⟩
  have hne : sumFlux ratio ip phase gs ≠ 1 := fun he =>
    (hiff.mp he) x y hx hy ⟨hs, hp⟩
  exact lt_of_le_of_ne hle hne

/-- Witness for C3 (amended), at the default grid size. -/
theorem claim_C3_witness :
    (1 ≤ 1001) ∧
    (0 ≤ sumFlux (1/10) 0 0 1001 ∧ sumFlux (1/10) 0 0 1001 ≤ 1 ∧
    (sumFlux (1/10) 0 0 1001 = 1 ↔
      ∀ x y, x < 1001 → y < 1001 →
        ¬(starMem 1001 x y ∧ planetMem (1/10) 0 0 1001 x y)) ∧
    ((∃ x y, x < 1001 ∧ y < 1001 ∧ starMem 1001 x y ∧
        planetMem (1/10) 0 0 1001 x y) →
      sumFlux (1/10) 0 0 1001 < 1)) :=
  ⟨by norm_num, claim_C3_amended (1/10) 0 0 1001 (by norm_num)⟩

/-- C3 counterexample: at `planet_to_star_ratio = 2` (a planet disk twice the
star disk, concentric with it) and the default grid size, every star pixel is
covered, so the flux-map sum is `0`, not in `(0, 1]` as claimed. -/
theorem claim_C3_counterexample : sumFlux 2 0 0 1001 = 0 := by
  rw [sumFlux_eq_card_div]
  have hempty : visibleSet 2 0 0 1001 = ∅ := by
    rw [visibleSet, Finset.filter_eq_empty_iff]
    intro p _
    rintro ⟨hs, hnp⟩
    apply hnp
    unfold starMem inDisk star_radius at hs
    norm_num at hs
    unfold planetMem inDisk x_p y_p planet_radius star_radius pyInt pyFloorDiv
    norm_num
    linarith [hs]
  rw [hempty]
  simp

/-- C4: every entry of the returned normalized flux map is nonnegative, for
every input (the final clip at `0.0`). -/
theorem claim_C4_flux_nonneg (ratio ip phase : ℚ) (gs : ℕ) (row : List ℚ)
    (hrow : row ∈ fluxGrid ratio ip phase gs) (v : ℚ) (hv : v ∈ row) : 0 ≤ v := by
  unfold fluxGrid toGrid at hrow
  rcases List.mem_map.mp hrow with ⟨i, _, rfl⟩
  rcases List.mem_map.mp hv with ⟨j, _, rfl⟩
  exact le_max_left 0 _

/-- Witness for C4 on a concrete one-pixel grid. -/
theorem claim_C4_witness :
    [fluxEntry 0 0 0 1 0 0] ∈ fluxGrid 0 0 0 1 ∧
    fluxEntry 0 0 0 1 0 0 ∈ [fluxEntry 0 0 0 1 0 0] ∧
    0 ≤ fluxEntry 0 0 0 1 0 0 :=
  ⟨by simp [fluxGrid, toGrid, List.range_succ], List.mem_singleton.mpr rfl,
   claim_C4_flux_nonneg 0 0 0 1 [fluxEntry 0 0 0 1 0 0]
     (by simp [fluxGrid, toGrid, List.range_succ]) (fluxEntry 0 0 0 1 0 0)
     (List.mem_singleton.mpr rfl)⟩

/- ### The column-density map -/

/-- `column_density = 2 * np.sum(np.array([density_profile, density_profile]),
axis=0)` (transit.py lines 118-119): elementwise, the profile is added to
itself and the result multiplied by `2`. -/
def column_density (dp : List ℚ) : List ℚ :=
  (List.zipWith (· + ·) dp dp).map fun s => 2 * s

/-- `px_size = planet_physical_radius / planet_radius` (transit.py line 115). -/
def px_size (ppr ratio : ℚ) (gs : ℕ) : ℚ := ppr / planet_radius ratio gs

/-- The planet-centric physical radius of the pixel at row `i`, column `j`
(pixel `(x, y) = (j, i)`): the entry `r_p[i][j]` of transit.py line 116,
Euclidean pixel distance from the planet center scaled by `px_size`. -/
noncomputable def r_phys (ppr ratio ip phase : ℚ) (gs : ℕ) (i j : ℕ) : ℝ :=
  Real.sqrt ((((j : ℚ) - ((x_p phase gs : ℤ) : ℚ)) ^ 2 +
    ((i : ℚ) - ((y_p ip gs : ℤ) : ℚ)) ^ 2 : ℚ)) * ((px_size ppr ratio gs : ℚ) : ℝ)

/-- Helper for `linInterp`: interpolation once the argument is known to be at
or beyond the first node.  On the segment ending at the next node the value is
`y0 + (y1 - y0) * (t - x0) / (x1 - x0)`; past the last node the fill value `0`
is returned (`scipy` only returns the final ordinate when the argument hits the
last node exactly, which the preceding segment case already covers; the
remaining equality test keeps the one-node case total). -/
noncomputable def interpAux : ℚ × ℚ → List (ℚ × ℚ) → ℝ → ℝ
  | (x0, y0), [], t => if t = (x0 : ℝ) then (y0 : ℝ) else 0
  | (x0, y0), (x1, y1) :: rest, t =>
      if t ≤ (x1 : ℝ) then
        (y0 : ℝ) + ((y1 : ℝ) - (y0 : ℝ)) * (t - (x0 : ℝ)) / ((x1 : ℝ) - (x0 : ℝ))
      else interpAux (x1, y1) rest t

/-- `scipy.interpolate.interp1d(xs, ys, kind='linear', bounds_error=False,
fill_value=0.0)` evaluated at `t`, for the node list `xs.zip ys` (in ascending
node order, as the specification requires of `profile_radius`): piecewise
linear inside the node range, `0` outside it. -/
noncomputable def linInterp : List (ℚ × ℚ) → ℝ → ℝ
  | [], _ => 0
  | p :: rest, t => if t < (p.1 : ℝ) then 0 else interpAux p rest t

/-- `density_map[i][j] = f(r_p)[i][j]` where `f` interpolates
`column_density` over `profile_radius` (transit.py lines 122-124). -/
noncomputable def densityEntry (dp pr : List ℚ) (ppr ratio ip phase : ℚ)
    (gs : ℕ) (i j : ℕ) : ℝ :=
  linInterp (pr.zip (column_density dp)) (r_phys ppr ratio ip phase gs i j)

/-- The returned `density_map` when a profile is supplied. -/
noncomputable def densityGrid (dp pr : List ℚ) (ppr ratio ip phase : ℚ)
    (gs : ℕ) : List (List ℝ) :=
  toGrid gs (densityEntry dp pr ppr ratio ip phase gs)

/-- `draw_transit` (transit.py lines 18-136).  The error cases model the
exceptions Python raises before anything is returned: a `TypeError` from
`planet_physical_radius / planet_radius` when `planet_physical_radius` is
`None`, a `ValueError` from `interp1d` when `profile_radius` is `None`, and
the `ValueError` `interp1d` raises when the two profile arrays have different
lengths or fewer than two entries. -/
noncomputable def draw_transit (ratio ip phase : ℚ) (gs : ℕ)
    (dpO prO : Option (List ℚ)) (pprO : Option ℚ) :
    Except String (List (List ℚ) × List (List ℝ)) :=
  match dpO, prO, pprO with
  | none, _, _ => .ok (fluxGrid ratio ip phase gs, toGrid gs fun _ _ => (0 : ℝ))
  | some dp, some pr, some ppr =>
      if dp.length = pr.length ∧ 2 ≤ pr.length then
        .ok (fluxGrid ratio ip phase gs, densityGrid dp pr ppr ratio ip phase gs)
      else .error "x and y arrays must be equal in length and have at least 2 entries"
  | some _, _, _ =>
      .error "density_profile supplied without profile_radius or planet_physical_radius"

/- ### Helper lemmas about the interpolation -/

theorem interpAux_eq_zero_of_gt (l : List (ℚ × ℚ)) :
    ∀ (p : ℚ × ℚ) (t : ℝ), (∀ q ∈ p :: l, (q.1 : ℝ) < t) →
    interpAux p l t = 0 := by
  induction l with
  | nil =>
    rintro ⟨x0, y0⟩ t hall
    have hx : ((x0 : ℚ) : ℝ) < t := hall (x0, y0) (by simp)
    simp only [interpAux]
    rw [if_neg hx.ne']
  | cons q rest ih =>
    rintro ⟨x0, y0⟩ t hall
    obtain ⟨x1, y1⟩ := q
    have hx1 : ((x1 : ℚ) : ℝ) < t := hall (x1, y1) (by simp)
    simp only [interpAux]
    rw [if_neg (not_le.mpr hx1)]
    exact ih (x1, y1) t fun r hr => hall r (List.mem_cons_of_mem _ hr)

theorem linInterp_eq_zero_outside (pts : List (ℚ × ℚ)) (t : ℝ)
    (h : (∀ q ∈ pts, t < (q.1 : ℝ)) ∨ (∀ q ∈ pts, (q.1 : ℝ) < t)) :
    linInterp pts t = 0 := by
  cases pts with
  | nil => simp [linInterp]
  | cons p rest =>
    rcases h with h | h
    · simp only [linInterp]
      rw [if_pos (h p (by simp))]
    · simp only [linInterp]
      rw [if_neg (not_lt.mpr (le_of_lt (h p (by simp))))]
      exact interpAux_eq_zero_of_gt rest p t h

theorem column_density_eq_quadruple (dp : List ℚ) :
    column_density dp = dp.map fun d => 4 * d := by
  unfold column_density
  induction dp with
  | nil => rfl
  | cons d l ih =>
    simp only [List.zipWith_cons_cons, List.map_cons] at ih ⊢
    rw [ih]
    congr 1
    ring

theorem mem_toGrid {α : Type} (gs : ℕ) (f : ℕ → ℕ → α) (row : List α)
    (hrow : row ∈ toGrid gs f) (v : α) (hv : v ∈ row) :
    ∃ i j, i < gs ∧ j < gs ∧ v = f i j := by
  unfold toGrid at hrow
  rcases List.mem_map.mp hrow with ⟨i, hi, rfl⟩
  rcases List.mem_map.mp hv with ⟨j, hj, rfl⟩
  exact ⟨i, j, List.mem_range.mp hi, List.mem_range.mp hj, rfl⟩

/- ### Claims about the density map -/

/-- C1 (amended): when a density profile is supplied, the column-density map at
each pixel is the linear interpolant of the pairs
`(profile_radius, 4 * density_profile)` — not `2 * density_profile`: the code
first adds the profile to itself and then multiplies by `2` — evaluated at the
pixel's planet-centric physical radius (with zero fill outside the node range,
so the equality holds at every pixel). -/
theorem claim_C1_amended (dp pr : List ℚ) (ppr ratio ip phase : ℚ) (gs i j : ℕ) :
    densityEntry dp pr ppr ratio ip phase gs i j =
      linInterp (pr.zip (dp.map fun d => 4 * d)) (r_phys ppr ratio ip phase gs i j) := by
  unfold densityEntry
  rw [column_density_eq_quadruple]

/-- The column-density map the claim describes: the linear interpolant of
exactly twice the supplied volumetric density profile. -/
noncomputable def claimedDensityEntry (dp pr : List ℚ) (ppr ratio ip phase : ℚ)
    (gs : ℕ) (i j : ℕ) : ℝ :=
  linInterp (pr.zip (dp.map fun d => 2 * d)) (r_phys ppr ratio ip phase gs i j)

theorem r_phys_val : r_phys 1 1 0 0 3 1 2 = 1 := by
  have hx : x_p 0 3 = 1 := by simp [x_p, pyInt]
  have hy : y_p 0 3 = 1 := by simp [y_p, pyInt, pyFloorDiv]
  unfold r_phys px_size planet_radius star_radius
  rw [hx, hy]
  norm_num [Real.sqrt_one]

/-- C1 counterexample: for the profile `density_profile = [3, 3]` on
`profile_radius = [0, 2]` with `planet_physical_radius = 1`, ratio `1`,
centered transit and `grid_size = 3`, the pixel at row 1, column 2 has
physical radius `1` (inside the sampled range), where the code produces
`12 = 4 * 3` while the claimed interpolant of `2 * density_profile` gives
`6 = 2 * 3`. -/
theorem claim_C1_counterexample :
    densityEntry [3, 3] [0, 2] 1 1 0 0 3 1 2 = 12 ∧
    claimedDensityEntry [3, 3] [0, 2] 1 1 0 0 3 1 2 = 6 ∧
    densityEntry [3, 3] [0, 2] 1 1 0 0 3 1 2 ≠
      claimedDensityEntry [3, 3] [0, 2] 1 1 0 0 3 1 2 := by
  have h1 : densityEntry [3, 3] [0, 2] 1 1 0 0 3 1 2 = 12 := by
    unfold densityEntry column_density
    rw [r_phys_val]
    norm_num
    simp only [linInterp, interpAux]
    rw [if_neg (by norm_num), if_pos (by norm_num)]
    norm_num
  have h2 : claimedDensityEntry [3, 3] [0, 2] 1 1 0 0 3 1 2 = 6 := by
    unfold claimedDensityEntry
    rw [r_phys_val]
    norm_num
    simp only [linInterp, interpAux]
    rw [if_neg (by norm_num), if_pos (by norm_num)]
    norm_num
  refine ⟨h1, h2, ?_⟩
  rw [h1, h2]
  norm_num

/-- C5: the density map is zero at every pixel whose planet-centric physical
radius lies outside the range of the supplied `profile_radius` (below every
node or above every node; no extrapolation, fill value `0`), and the density
map is identically zero when `density_profile` is omitted. -/
theorem claim_C5_zero_outside :
    (∀ (ratio ip phase : ℚ) (gs : ℕ) (prO : Option (List ℚ)) (pprO : Option ℚ)
       (fm : List (List ℚ)) (dm : List (List ℝ)),
       draw_transit ratio ip phase gs none prO pprO = .ok (fm, dm) →
       ∀ row ∈ dm, ∀ v ∈ row, v = 0) ∧
    (∀ (dp pr : List ℚ) (ppr ratio ip phase : ℚ) (gs i j : ℕ),
       ((∀ x ∈ pr, r_phys ppr ratio ip phase gs i j < (x : ℝ)) ∨
        (∀ x ∈ pr, (x : ℝ) < r_phys ppr ratio ip phase gs i j)) →
       densityEntry dp pr ppr ratio ip phase gs i j = 0) := by
  constructor
  · intro ratio ip phase gs prO pprO fm dm hok row hrow v hv
    simp only [draw_transit, Except.ok.injEq, Prod.mk.injEq] at hok
    rcases hok with ⟨-, hdm⟩
    subst hdm
    rcases mem_toGrid gs _ row hrow v hv with ⟨i, j, -, -, rfl⟩
    rfl
  · intro dp pr ppr ratio ip phase gs i j h
    unfold densityEntry
    apply linInterp_eq_zero_outside
    rcases h with h | h
    · refine Or.inl fun q hq => ?_
      obtain ⟨a, b⟩ := q
      exact h a (List.of_mem_zip hq).1
    · refine Or.inr fun q hq => ?_
      obtain ⟨a, b⟩ := q
      exact h a (List.of_mem_zip hq).1

/-- Witness for C5: a no-profile call whose density map rows are all zero, and
a concrete pixel at physical radius `1`, below the sampled range `[2, 3]`,
whose density is `0`. -/
theorem claim_C5_witness :
    (∀ row ∈ toGrid 1 fun _ _ => (0 : ℝ), ∀ v ∈ row, v = 0) ∧
    (∀ x ∈ [(2 : ℚ), 3], r_phys 1 1 0 0 3 1 2 < (x : ℝ)) ∧
    densityEntry [5, 5] [2, 3] 1 1 0 0 3 1 2 = 0 := by
  have hlt : ∀ x ∈ [(2 : ℚ), 3], r_phys 1 1 0 0 3 1 2 < (x : ℝ) := by
    intro x hx
    rw [r_phys_val]
    simp only [List.mem_cons, List.not_mem_nil, or_false] at hx
    rcases hx with rfl | rfl <;> norm_num
  refine ⟨claim_C5_zero_outside.1 0 0 0 1 none none _ _ rfl, hlt,
    claim_C5_zero_outside.2 [5, 5] [2, 3] 1 1 0 0 3 1 2 (Or.inl hlt)⟩

/-- C7: calling `draw_transit` with a density profile but without
`profile_radius` or without `planet_physical_radius` fails fast with an error
surfaced to the caller, instead of producing a result. -/
theorem claim_C7_missing_companion_error (ratio ip phase : ℚ) (gs : ℕ)
    (dp : List ℚ) (prO : Option (List ℚ)) (pprO : Option ℚ)
    (h : prO = none ∨ pprO = none) :
    draw_transit ratio ip phase gs (some dp) prO pprO =
      .error "density_profile supplied without profile_radius or planet_physical_radius" := by
  rcases h with h | h
  · subst h
    cases pprO <;> rfl
  · subst h
    cases prO <;> rfl

/-- Witness for C7: a profile with no `profile_radius`. -/
theorem claim_C7_witness :
    ((none : Option (List ℚ)) = none ∨ (some (1 : ℚ)) = none) ∧
    draw_transit 1 0 0 3 (some [1, 1]) none (some 1) =
      .error "density_profile supplied without profile_radius or planet_physical_radius" :=
  ⟨Or.inl rfl,
    claim_C7_missing_companion_error 1 0 0 3 [1, 1] none (some 1) (Or.inl rfl)⟩

/- ### The transmission profile -/

/-- Speed of light in m/s (transit.py line 178). -/
noncomputable def c_speed : ℝ := 2.99792458e8

/-- Boltzmann's constant in J/K (transit.py line 179). -/
noncomputable def k_b : ℝ := 1.380649e-23

/-- `v_turb = (5 * k_b * temp / 3 / mass) ** 0.5` (transit.py line 185). -/
noncomputable def v_turb (temp mass : ℝ) : ℝ := Real.sqrt (5 * k_b * temp / 3 / mass)

/-- `u_th = (2 * k_b * temp / mass + v_turb ** 2) ** 0.5` (transit.py line 187). -/
noncomputable def u_th (temp mass : ℝ) : ℝ :=
  Real.sqrt (2 * k_b * temp / mass + v_turb temp mass ^ 2)

/-- `alpha_lambda = w0 / c_speed * u_th` (transit.py line 188). -/
noncomputable def alpha_lambda (w0 temp mass : ℝ) : ℝ := w0 / c_speed * u_th temp mass

/-- `gamma_nu = einstein_coeff / 4 / np.pi` (transit.py line 193). -/
noncomputable def gamma_nu (einstein_coeff : ℝ) : ℝ := einstein_coeff / 4 / Real.pi

/-- `np.diff` of a 1-D array: successive differences. -/
noncomputable def npdiff (l : List ℝ) : List ℝ := List.zipWith (fun a b => b - a) l l.tail

/-- `nuk = np.array([-gamma_nu / 2, gamma_nu / 2]) + nu0` with
`nu0 = c_speed / w0` (transit.py lines 180, 194). -/
noncomputable def nuk (einstein_coeff w0 : ℝ) : List ℝ :=
  [-(gamma_nu einstein_coeff) / 2 + c_speed / w0,
   gamma_nu einstein_coeff / 2 + c_speed / w0]

/-- `wk = c_speed / nuk` (transit.py line 195). -/
noncomputable def wk (einstein_coeff w0 : ℝ) : List ℝ :=
  (nuk einstein_coeff w0).map fun nu => c_speed / nu

/-- `gamma_lambda = np.diff(w0 - wk)[0]` (transit.py line 196). -/
noncomputable def gamma_lambda (einstein_coeff w0 : ℝ) : ℝ :=
  (npdiff ((wk einstein_coeff w0).map fun w => w0 - w)).getD 0 0

/-- The Lorentzian wavelength half-width as the claim words it: the exact
frequency-to-wavelength round trip
`c/(nu0 - gamma_nu/2) - c/(nu0 + gamma_nu/2)` with `nu0 = c / w0`. -/
noncomputable def gamma_lambda_spec (einstein_coeff w0 : ℝ) : ℝ :=
  c_speed / (c_speed / w0 - gamma_nu einstein_coeff / 2) -
    c_speed / (c_speed / w0 + gamma_nu einstein_coeff / 2)

/-- C8: the Lorentzian half-width `gamma_lambda` of the code (a list
construction, reciprocal conversion and `np.diff`) equals the difference of
the two converted half-width offsets, not a first-order linearization. -/
theorem claim_C8_gamma_lambda (einstein_coeff w0 : ℝ) :
    gamma_lambda einstein_coeff w0 = gamma_lambda_spec einstein_coeff w0 := by
  unfold gamma_lambda gamma_lambda_spec wk nuk npdiff
  simp only [List.map_cons, List.map_nil, List.tail_cons, List.zipWith_cons_cons,
    List.zipWith_nil_right, List.getD_cons_zero]
  ring

/-- Modelled from the spec: `p_winds.tools.cross_section` (the `p_winds.tools`
module is not among the sources at hand).  The specification fixes the call
contract — given the oscillator strength, the reference wavelength, the
Doppler width and one normalized-profile value, return the cross-section,
elementwise over the profile — and describes the classical
`sigma = (pi e^2 / (m_e c^2)) * f * lambda^2 / c * phi` formula whose exact
constants the collaborator owns. -/
noncomputable def cross_section (f w0 _alpha phi : ℝ) : ℝ :=
  Real.pi * (1.602176634e-19) ^ 2 / (9.1093837015e-31 * c_speed ^ 2) * f *
    w0 ^ 2 / c_speed * phi

/-- `transmission` at a single wavelength (transit.py lines 140-204),
parameterized by the external `scipy.special.voigt_profile` function `v`
(arguments: distance from the line center, Gaussian width, Lorentzian
half-width): `absorption = sigma * cell_density` with
`sigma = cross_section(oscillator_strength, w0, alpha_lambda, phi)` and
`phi = voigt_profile(wl - w0, alpha_lambda, gamma_lambda)`. -/
noncomputable def transmission_scalar (v : ℝ → ℝ → ℝ → ℝ)
    (cell_density cell_temperature oscillator_strength einstein_coeff : ℝ)
    (reference_wavelength particle_mass wl : ℝ) : ℝ :=
  cross_section oscillator_strength reference_wavelength
    (alpha_lambda reference_wavelength cell_temperature particle_mass)
    (v (wl - reference_wavelength)
      (alpha_lambda reference_wavelength cell_temperature particle_mass)
      (gamma_lambda einstein_coeff reference_wavelength)) * cell_density

/-- `transmission` on a wavelength grid: every step of the source computation
(`wl_grid - w0`, `voigt_profile`, the cross-section scaling and the final
multiplication by the density) acts elementwise in the wavelength, so the
result is the map of the scalar case over the grid. -/
noncomputable def transmission (v : ℝ → ℝ → ℝ → ℝ)
    (cell_density cell_temperature oscillator_strength einstein_coeff : ℝ)
    (wavelength_grid : List ℝ) (reference_wavelength particle_mass : ℝ) : List ℝ :=
  wavelength_grid.map
    (transmission_scalar v cell_density cell_temperature oscillator_strength
      einstein_coeff reference_wavelength particle_mass)

/-- C9: the returned absorption has the same shape as the wavelength grid: a
length-`n` wavelength list yields a length-`n` absorption list (and the scalar
case is scalar by the type of `transmission_scalar`). -/
theorem claim_C9_shape (v : ℝ → ℝ → ℝ → ℝ)
    (cell_density cell_temperature oscillator_strength einstein_coeff : ℝ)
    (wavelength_grid : List ℝ) (reference_wavelength particle_mass : ℝ) :
    (transmission v cell_density cell_temperature oscillator_strength
      einstein_coeff wavelength_grid reference_wavelength particle_mass).length =
      wavelength_grid.length := by
  unfold transmission
  simp

end PWinds
